import Mathlib

/-!
Verification development for the `ra-data-odata-server` data provider
(`src/index.ts`).  The provider translates the react-admin generic CRUD
contract into OData v4 requests.  This file gives a shallow embedding of
its data model and operations and proves or refutes the specification
claims about it.

Modelling conventions:
* JavaScript objects used as string-keyed records (`Record<string, T>`)
  become association lists with insert-or-overwrite semantics
  (`recordInsert` / `lookupRecord`).
* react-admin identifiers (`string | number`) become the sum type
  `Identifier`; JavaScript truthiness on them is `Identifier.falsy`
  (`0`, `""` and an absent value are falsy).
* The HTTP transport is an oracle supplied as a function argument: each
  operation receives the response(s) it would obtain from the wire.
  Parsed JSON bodies are part of the modelled response (`ParsedBody`),
  covering exactly the access paths the source uses (`json.error`,
  `json.value`, `json["@odata.count"]`, `json[target]`, the entity
  itself).
* Where the source dereferences an `undefined` catalog entry (an unknown
  resource) it throws a `TypeError`, which rejects the async call; the
  embedding returns `OpError.schema`, the failure kind the specification
  assigns to an addressed resource absent from the catalog.
-/

namespace RaOdata

/-- ASCII lower-casing, mirroring `String.prototype.toLowerCase` as used on
resource names.  Written over the character list so it evaluates by
kernel reduction. -/
def toLowerCase (s : String) : String := ⟨s.data.map Char.toLower⟩

/-- A react-admin `Identifier` is `string | number`. -/
inductive Identifier where
  | str (s : String)
  | num (n : Int)
deriving DecidableEq

/-- JavaScript falsiness of an identifier value: the number `0` and the
empty string are falsy, everything else is truthy. -/
def Identifier.falsy : Identifier → Bool
  | .str s => s == ""
  | .num n => n == 0

/-- Truthiness of an optional identifier, as tested by `if (!params.id)`. -/
def idTruthy : Option Identifier → Bool
  | none => false
  | some id => !id.falsy

/-- Truthiness of an optional string parameter (`params.related`,
`params.filter.parent`, ...): absent or empty is falsy. -/
def truthyOptStr : Option String → Bool
  | none => false
  | some s => !(s == "")

/-- Insert-or-overwrite on a string-keyed association list, mirroring a
JavaScript object assignment `obj[k] = v`. -/
def recordInsert {β : Type} (acc : List (String × β)) (k : String) (v : β) :
    List (String × β) :=
  if acc.any (fun p => p.1 == k) then
    acc.map (fun p => if p.1 == k then (k, v) else p)
  else
    acc ++ [(k, v)]

/-- Lookup on a string-keyed association list, mirroring `obj[k]`
(`none` plays the role of `undefined`). -/
def lookupRecord {β : Type} (m : List (String × β)) (k : String) : Option β :=
  (m.find? (fun p => p.1 == k)).map Prod.snd

/-- Interface `EntityProperty` of `src/index.ts`: a scalar field of an
entity.  The source field `Type` is spelled `Type'` because `Type` is a
Lean keyword. -/
structure EntityProperty where
  Name : String
  Type' : String
deriving DecidableEq

/-- Interface `EntityType` of `src/index.ts`. -/
structure EntityType where
  Property : List EntityProperty
  Key : Option EntityProperty
deriving DecidableEq

/-- Interface `EntitySet` of `src/index.ts`. -/
structure EntitySet where
  Name : String
  Url : String
  Type' : EntityType
  Key : Option EntityProperty
deriving DecidableEq

/-! ## Schema discovery (`get_entities`)

The parsed `$metadata` document, as the source reads it out of the XML
parser's output: schemas with namespaces, entity type declarations with
an optional `Key` element, and entity container sets referencing a type
by fully-namespaced name.  The XML parser yields a single object for a
lone `PropertyRef` child and an array for several; the source's
`Array.isArray(e.Key.PropertyRef)` test is mirrored by the two
constructors of `KeyRefs`. -/

structure PropertyRef where
  Name : String
deriving DecidableEq

/-- The `Key` element of an entity type declaration: a single property
reference or an array of them (a compound key). -/
inductive KeyRefs where
  | single (ref : PropertyRef)
  | multiple (refs : List PropertyRef)
deriving DecidableEq

structure RawProperty where
  Name : String
  Type' : String
deriving DecidableEq

structure RawEntityType where
  Name : String
  Property : List RawProperty
  Key : Option KeyRefs
deriving DecidableEq

structure RawEntitySet where
  Name : String
  EntityType' : String
deriving DecidableEq

structure RawSchema where
  Namespace : String
  EntityType : List RawEntityType
  EntitySet : List RawEntitySet
deriving DecidableEq

structure Metadata where
  Schema : List RawSchema
deriving DecidableEq

/-- The `EntityType` value registered for a surviving declaration: the
mapped property list together with the property named by the single key
reference (absent when the reference names no declared property). -/
def build_entity_type (e : RawEntityType) (ref : PropertyRef) : EntityType :=
  let properties := e.Property.map (fun p => EntityProperty.mk p.Name p.Type')
  { Property := properties
    Key := properties.find? (fun p => p.Name == ref.Name) }

/-- First pass of `get_entities`: register every entity type whose `Key`
element exists and is a single (non-array) property reference, keyed by
`namespace.name`; all other declarations are skipped. -/
def get_entity_types (md : Metadata) : List (String × EntityType) :=
  md.Schema.foldl (fun acc schema =>
    schema.EntityType.foldl (fun acc e =>
      match e.Key with
      | some (KeyRefs.single ref) =>
          recordInsert acc (schema.Namespace ++ "." ++ e.Name) (build_entity_type e ref)
      | _ => acc) acc) []

/-- Second pass of `get_entities`: register every entity set whose
referenced entity type survived the first pass, keyed by the set's
lower-cased name; sets referencing a discarded type are skipped. -/
def get_entities (md : Metadata) : List (String × EntitySet) :=
  md.Schema.foldl (fun acc schema =>
    schema.EntitySet.foldl (fun acc set =>
      match lookupRecord (get_entity_types md) set.EntityType' with
      | some ty =>
          recordInsert acc (toLowerCase set.Name)
            { Name := set.Name, Url := set.Name, Type' := ty, Key := ty.Key }
      | none => acc) acc) []

/-! ## Identifier codec -/

/-- A URL key token as produced by `getproperty_identifier`: either the
value wrapped with `odata.identifier` or the plain value handed to the
query builder. -/
inductive KeyToken where
  | literal (id : Identifier)
  | plain (id : Identifier)
deriving DecidableEq

/-- Modelled from the spec: the external OData query-builder collaborator
(`odata-client`, not part of this repository) renders a plain value as a
quoted OData string literal (for example `('ALFKI')`) and an
`odata.identifier`-wrapped value verbatim, unquoted (for example `(1)`).
`quoted` tells whether the rendered token is a quoted string literal. -/
def KeyToken.quoted : KeyToken → Bool
  | .literal _ => false
  | .plain _ => true

/-- Function `getproperty_identifier` of `src/index.ts`, taken at an
already-resolved entity set (the source re-looks the resource up in the
catalog by its lower-cased name; the resolved set is the same value).
The declared type of `propertyName` in the property list decides the
encoding: `Edm.Int32` and `Edm.Guid` are wrapped as literal identifiers,
everything else — including an undeclared property, whose looked-up type
is `undefined` — is passed through plain. -/
def getproperty_identifier (res : EntitySet) (propertyName : String)
    (id : Identifier) : KeyToken :=
  let type := (res.Type'.Property.find? (fun p => p.Name == propertyName)).map
    EntityProperty.Type'
  if type == some "Edm.Int32" || type == some "Edm.Guid" then
    KeyToken.literal id
  else
    KeyToken.plain id

/-! ## Errors and queries -/

/-- Failure outcomes of an operation, one constructor per rejection site
in the source: `http` is a thrown `HttpError(message, statusCode, body)`;
`envelope` is the `getMany` quirk `HttpError(message, json.error, body)`
where the envelope object sits in the status-code slot; `body` is a bare
`Promise.reject(resp.body)`; `server` is `Promise.reject
(json.error.message)`; `schema` marks the `TypeError` thrown when an
addressed resource is absent from the catalog — the failure mode the
specification classifies as a schema error. -/
inductive OpError where
  | http (message : String) (statusCode : Int) (body : String)
  | envelope (message : String) (error : String) (body : String)
  | body (body : String)
  | server (message : String)
  | schema (resource : String)
deriving DecidableEq

/-- Whether a failed outcome is the non-200-status rejection (the
transport-failure classification). -/
def isTransportFailure {β : Type} : Except OpError β → Bool
  | .error (.http _ _ _) => true
  | .error (.body _) => true
  | _ => false

/-- A filter clause handed to the query builder: `getList` appends
`Contains(field,'value')` strings, the `getManyReference` filter branch
appends an equality test of the target field against a key token. -/
inductive FilterClause where
  | contains (field : String) (value : String)
  | eqKey (field : String) (value : KeyToken)
deriving DecidableEq

/-- The request description accumulated by the fluent query builder:
path segments (each optionally keyed), the `$count` flag, `$orderby`,
`$skip`, `$top`, `$filter` clauses and `$expand`. -/
structure Query where
  segments : List (String × Option KeyToken) := []
  countFlag : Bool := false
  orderby : Option (String × String) := none
  skip : Option Int := none
  top : Option Int := none
  filters : List FilterClause := []
  expand : Option String := none
deriving DecidableEq

/-- Catalog-level `getproperty_identifier`: the source closure looks the
resource up by lower-cased name and dereferences the entry; an absent
resource makes it throw (modelled as the schema failure). -/
def getproperty_identifier_cat (catalog : List (String × EntitySet))
    (resource : String) (propertyName : String) (id : Identifier) :
    Except OpError KeyToken :=
  match lookupRecord catalog (toLowerCase resource) with
  | none => .error (.schema resource)
  | some res => .ok (getproperty_identifier res propertyName id)

/-- Function `getresource` of `src/index.ts`: resolve the entity set by
lower-cased resource name, take its key property's name (falling back to
`"UnknownType"`), and build the single-segment query
`res.Url(encoded id)`.  An absent resource throws (schema failure). -/
def getresource (catalog : List (String × EntitySet)) (resource : String)
    (id : Identifier) : Except OpError Query :=
  match lookupRecord catalog (toLowerCase resource) with
  | none => .error (.schema resource)
  | some res =>
      let type := (res.Key.map EntityProperty.Name).getD "UnknownType"
      .ok { segments := [(res.Url, some (getproperty_identifier res type id))] }

/-! ## Responses -/

/-- The parsed JSON body of a response, covering the access paths the
source uses: the OData error envelope's message (`json.error`), the
collection payload (`json.value`), the inline count
(`json["@odata.count"]`), expanded navigation collections
(`json[target]`) and the body read as a single entity (`json` itself). -/
structure ParsedBody (α : Type) where
  error : Option String
  value : List α
  odata_count : Int
  fields : String → List α
  entity : α

/-- A transport response: status line plus raw and parsed body. -/
structure Resp (α : Type) where
  statusCode : Int
  statusMessage : String
  body : String
  json : ParsedBody α

/-- JavaScript `resp.statusMessage || default`: the default replaces an
empty (falsy) status message. -/
def statusMessageOr (m d : String) : String := if m == "" then d else m

/-! ## Operation parameter records -/

/-- Parameters of `getList` (`GetRelatedParams`): pagination, sort, the
filter object, and the optional `id`/`related` pair for listing a
navigation collection under one entity. -/
structure GetListParams where
  page : Int
  perPage : Int
  field : String
  order : String
  filter : List (String × String)
  id : Option String := none
  related : Option String := none

/-- Parameters of `getManyReference`: the scoping id, the target field,
the `parent` filter marker, pagination and sort. -/
structure GetManyRefParams where
  id : Option Identifier
  target : String
  parent : Option String
  page : Int
  perPage : Int
  field : String
  order : String

/-- Parameters of `create` (`CreateRelatedParams`), request body omitted
(it is passed through untouched). -/
structure CreateParams where
  id : Option Identifier := none
  related : Option String := none

/-! ## Query builders -/

/-- The request `getList` builds: `$count=true`, resource segment
(keyed by the raw string id when one is given), optional related
segment, orderby/skip/top, then one `Contains` clause per filter
field. -/
def getList_query (resource : String) (p : GetListParams) : Query :=
  let o : Query := { countFlag := true }
  let o :=
    if truthyOptStr p.id then
      { o with segments := o.segments ++
          [(resource, p.id.map (fun s => KeyToken.plain (.str s)))] }
    else
      { o with segments := o.segments ++ [(resource, none)] }
  let o :=
    if truthyOptStr p.related then
      { o with segments := o.segments ++ [((p.related.getD ""), none)] }
    else o
  let o := { o with
    orderby := some (p.field, p.order)
    skip := some ((p.page - 1) * p.perPage)
    top := some p.perPage }
  p.filter.foldl (fun o f =>
    { o with filters := o.filters ++ [FilterClause.contains f.1 f.2] }) o

/-- The request `getManyReference` builds, or `none` when the falsy-id
short-circuit answers without issuing one.  A truthy `parent` marker
selects the expansion strategy (`getresource(parent, id).expand(target)`);
otherwise the foreign-key filter strategy queries the resource itself
with `$count=true` and an equality filter of the target field against the
encoded scoping id.  Orderby/skip/top are then applied in place. -/
def getManyReference_query (catalog : List (String × EntitySet))
    (resource : String) (p : GetManyRefParams) : Except OpError (Option Query) :=
  match p.id with
  | none => .ok none
  | some id =>
    if id.falsy then .ok none
    else
      let filterBranch : Except OpError Query :=
        (getproperty_identifier_cat catalog resource p.target id).map (fun tok =>
          { segments := [(resource, none)], countFlag := true
            filters := [FilterClause.eqKey p.target tok] })
      let base : Except OpError Query :=
        match p.parent with
        | some parent =>
          if parent == "" then filterBranch
          else (getresource catalog parent id).map (fun q =>
            { q with expand := some p.target })
        | none => filterBranch
      base.map (fun q =>
        { q with countFlag := true
                 orderby := some (p.field, p.order)
                 skip := some ((p.page - 1) * p.perPage)
                 top := some p.perPage }) |>.map Option.some

/-! ## Response handlers, one per `.then` callback in the source -/

/-- Response handling of `getList`: non-200 throws
`HttpError(statusMessage || "getList error", statusCode, body)`, an
error envelope rejects with its message, otherwise the payload is
`(json.value, json["@odata.count"])`. -/
def getList_handle {α : Type} (resp : Resp α) : Except OpError (List α × Int) :=
  if resp.statusCode ≠ 200 then
    .error (.http (statusMessageOr resp.statusMessage "getList error")
      resp.statusCode resp.body)
  else
    match resp.json.error with
    | some m => .error (.server m)
    | none => .ok (resp.json.value, resp.json.odata_count)

/-- Response handling of `getOne`. -/
def getOne_handle {α : Type} (resp : Resp α) : Except OpError α :=
  if resp.statusCode ≠ 200 then
    .error (.http (statusMessageOr resp.statusMessage "getOne error")
      resp.statusCode resp.body)
  else
    match resp.json.error with
    | some m => .error (.server m)
    | none => .ok resp.json.entity

/-- One slot of a `getMany` result: the fetched entity, or an object
carrying the requested id and an error. -/
inductive GetManySlot (α : Type) where
  | entity (e : α)
  | failure (id : Identifier) (err : OpError)
deriving DecidableEq

/-- Per-id response handling of `getMany`: unlike the single-entity
operations it never rejects — a bad status or an error envelope becomes
a `failure` slot carrying the id. -/
def getMany_slot {α : Type} (id : Identifier) (resp : Resp α) : GetManySlot α :=
  if resp.statusCode ≠ 200 then
    .failure id (.http (statusMessageOr resp.statusMessage "getMany error")
      resp.statusCode resp.body)
  else
    match resp.json.error with
    | some e => .failure id
        (.envelope (statusMessageOr resp.statusMessage "getMany error") e resp.body)
    | none => .entity resp.json.entity

/-- Response handling of `getManyReference`: non-200 rejects with the raw
body, an envelope rejects with its message; on success the parent branch
returns the expanded collection with its length as total, the filter
branch returns `json.value` with the inline count as total. -/
def getManyReference_handle {α : Type} (p : GetManyRefParams) (resp : Resp α) :
    Except OpError (List α × Int) :=
  if resp.statusCode ≠ 200 then
    .error (.body resp.body)
  else
    match resp.json.error with
    | some m => .error (.server m)
    | none =>
      if truthyOptStr p.parent then
        let d := resp.json.fields p.target
        .ok (d, (d.length : Int))
      else
        .ok (resp.json.value, resp.json.odata_count)

/-- Response handling of `update` (also the shape used by `create` and
`delete`): non-200 rejects with the raw body. -/
def update_handle {α : Type} (resp : Resp α) : Except OpError α :=
  if resp.statusCode ≠ 200 then
    .error (.body resp.body)
  else
    match resp.json.error with
    | some m => .error (.server m)
    | none => .ok resp.json.entity

/-- Response handling of `create`. -/
def create_handle {α : Type} (resp : Resp α) : Except OpError α :=
  if resp.statusCode ≠ 200 then
    .error (.body resp.body)
  else
    match resp.json.error with
    | some m => .error (.server m)
    | none => .ok resp.json.entity

/-- Response handling of `delete`. -/
def delete_handle {α : Type} (resp : Resp α) : Except OpError α :=
  if resp.statusCode ≠ 200 then
    .error (.body resp.body)
  else
    match resp.json.error with
    | some m => .error (.server m)
    | none => .ok resp.json.entity

/-- Per-id response handling of `deleteMany`: the callback returns the id
on a 2xx status and returns nothing (JavaScript `undefined`, here
`none`) otherwise. -/
def deleteMany_slot {α : Type} (id : Identifier) (resp : Resp α) :
    Option Identifier :=
  if 200 ≤ resp.statusCode ∧ resp.statusCode < 300 then some id else none

/-! ## Operations -/

/-- Fan-out over the ids with `Promise.all` semantics: a synchronous
throw while building the requests (an absent resource) aborts the batch;
otherwise every per-id outcome is gathered in input order. -/
def settleAll {ε α β : Type} (f : α → Except ε β) : List α → Except ε (List β)
  | [] => .ok []
  | x :: xs =>
    match f x, settleAll f xs with
    | .error e, _ => .error e
    | .ok _, .error e => .error e
    | .ok y, .ok ys => .ok (y :: ys)

/-- Operation `getList`: build the query, hand it to the transport,
classify the response. -/
def getList {α : Type} (resource : String) (p : GetListParams)
    (t : Query → Resp α) : Except OpError (List α × Int) :=
  getList_handle (t (getList_query resource p))

/-- Operation `getOne`. -/
def getOne {α : Type} (catalog : List (String × EntitySet)) (resource : String)
    (id : Identifier) (t : Query → Resp α) : Except OpError α :=
  match getresource catalog resource id with
  | .error e => .error e
  | .ok q => getOne_handle (t q)

/-- Operation `getMany`: one sub-request per id (the transport oracle is
keyed by the id, which determines the sub-request's query), gathered in
input order. -/
def getMany {α : Type} (catalog : List (String × EntitySet)) (resource : String)
    (ids : List Identifier) (t : Identifier → Resp α) :
    Except OpError (List (GetManySlot α)) :=
  settleAll (fun id =>
    (getresource catalog resource id).map (fun _ => getMany_slot id (t id))) ids

/-- Operation `getManyReference`: a falsy scoping id resolves to
`([], 0)` with no request issued; otherwise the branch-selected query is
issued and its response classified. -/
def getManyReference {α : Type} (catalog : List (String × EntitySet))
    (resource : String) (p : GetManyRefParams) (t : Query → Resp α) :
    Except OpError (List α × Int) :=
  match getManyReference_query catalog resource p with
  | .error e => .error e
  | .ok none => .ok ([], 0)
  | .ok (some q) => getManyReference_handle p (t q)

/-- Operation `update` (patch body omitted, it is passed through). -/
def update {α : Type} (catalog : List (String × EntitySet)) (resource : String)
    (id : Identifier) (t : Query → Resp α) : Except OpError α :=
  match getresource catalog resource id with
  | .error e => .error e
  | .ok q => update_handle (t q)

/-- Operation `create` (post body omitted, it is passed through): with a
truthy `related`/`id` pair the child is created under
`resource(id)/related`, otherwise at the plain resource path. -/
def create {α : Type} (catalog : List (String × EntitySet)) (resource : String)
    (p : CreateParams) (t : Query → Resp α) : Except OpError α :=
  let oq : Except OpError Query :=
    match p.related, p.id with
    | some r, some id =>
      if r == "" || id.falsy then .ok { segments := [(resource, none)] }
      else (getresource catalog resource id).map (fun q =>
        { q with segments := q.segments ++ [(r, none)] })
    | _, _ => .ok { segments := [(resource, none)] }
  match oq with
  | .error e => .error e
  | .ok q => create_handle (t q)

/-- Operation `delete`. -/
def delete {α : Type} (catalog : List (String × EntitySet)) (resource : String)
    (id : Identifier) (t : Query → Resp α) : Except OpError α :=
  match getresource catalog resource id with
  | .error e => .error e
  | .ok q => delete_handle (t q)

/-- Operation `deleteMany`: one delete sub-request per id; each slot of
the gathered result is the id on a 2xx status and nothing otherwise. -/
def deleteMany {α : Type} (catalog : List (String × EntitySet))
    (resource : String) (ids : List Identifier) (t : Identifier → Resp α) :
    Except OpError (List (Option Identifier)) :=
  settleAll (fun id =>
    (getresource catalog resource id).map (fun _ => deleteMany_slot id (t id))) ids

/-! ## Decidability of outcome equality, used to evaluate concrete runs -/

instance {ε α : Type} [DecidableEq ε] [DecidableEq α] : DecidableEq (Except ε α) :=
  fun a b =>
    match a, b with
    | .ok x, .ok y =>
      if h : x = y then .isTrue (by rw [h])
      else .isFalse (by intro hc; cases hc; exact h rfl)
    | .error x, .error y =>
      if h : x = y then .isTrue (by rw [h])
      else .isFalse (by intro hc; cases hc; exact h rfl)
    | .ok _, .error _ => .isFalse (by intro hc; cases hc)
    | .error _, .ok _ => .isFalse (by intro hc; cases hc)

/-! ## Concrete fixtures used to evaluate the theorems -/

/-- A Northwind-style string-keyed entity type. -/
def customersType : EntityType :=
  { Property := [⟨"CustomerID", "Edm.String"⟩, ⟨"CompanyName", "Edm.String"⟩]
    Key := some ⟨"CustomerID", "Edm.String"⟩ }

/-- A Northwind-style integer-keyed entity type. -/
def employeesType : EntityType :=
  { Property := [⟨"EmployeeID", "Edm.Int32"⟩, ⟨"LastName", "Edm.String"⟩]
    Key := some ⟨"EmployeeID", "Edm.Int32"⟩ }

def customersSet : EntitySet :=
  { Name := "Customers", Url := "Customers", Type' := customersType
    Key := customersType.Key }

def employeesSet : EntitySet :=
  { Name := "Employees", Url := "Employees", Type' := employeesType
    Key := employeesType.Key }

/-- A discovered catalog holding the two fixture resources. -/
def catalogEx : List (String × EntitySet) :=
  [("customers", customersSet), ("employees", employeesSet)]

/-- A parsed body carrying no envelope and two entities. -/
def bodyEx : ParsedBody String :=
  { error := none, value := ["a", "b"], odata_count := 42
    fields := fun _ => ["x", "y", "z"], entity := "rec" }

/-- A successful 200 response. -/
def resp200 : Resp String :=
  { statusCode := 200, statusMessage := "OK", body := "{}", json := bodyEx }

/-- A 201 response without an error envelope. -/
def resp201 : Resp String :=
  { statusCode := 201, statusMessage := "Created", body := "{}", json := bodyEx }

/-- A 500 response. -/
def resp500 : Resp String :=
  { statusCode := 500, statusMessage := "Server Error", body := "boom", json := bodyEx }

/-- A per-id transport where only id 2 fails (status 500). -/
def perIdTransport : Identifier → Resp String := fun id =>
  if id == .num 2 then resp500 else resp200

/-- A constant transport answering 200 to every query. -/
def okTransport : Query → Resp String := fun _ => resp200

/-! ## Helper lemmas -/

/-- Membership after a record insertion: the pair was already present or
is the inserted one. -/
theorem recordInsert_mem {β : Type} {acc : List (String × β)} {k : String}
    {v : β} {p : String × β} (h : p ∈ recordInsert acc k v) :
    p ∈ acc ∨ p = (k, v) := by
  unfold recordInsert at h
  by_cases hany : acc.any (fun q => q.1 == k)
  · rw [if_pos hany] at h
    rcases List.mem_map.mp h with ⟨q, hq, hqe⟩
    by_cases hk : q.1 == k
    · right
      rw [if_pos hk] at hqe
      exact hqe.symm
    · left
      rw [if_neg hk] at hqe
      exact hqe ▸ hq
  · rw [if_neg hany] at h
    rcases List.mem_append.mp h with h | h
    · exact Or.inl h
    · exact Or.inr (List.mem_singleton.mp h)

/-- Fold invariant: if each step only adds elements satisfying `Q`,
every element of the fold's result was in the seed or satisfies `Q`. -/
theorem foldl_mem_preserve {σ γ : Type} (Q : σ → Prop) (f : List σ → γ → List σ)
    (l : List γ) (hf : ∀ acc x, x ∈ l → ∀ p, p ∈ f acc x → p ∈ acc ∨ Q p) :
    ∀ acc, ∀ p ∈ List.foldl f acc l, p ∈ acc ∨ Q p := by
  induction l with
  | nil => intro acc p hp; exact Or.inl hp
  | cons x xs ih =>
    intro acc p hp
    rw [List.foldl_cons] at hp
    rcases ih (fun acc' y hy q hq => hf acc' y (List.mem_cons_of_mem _ hy) q hq)
      (f acc x) p hp with h | h
    · rcases hf acc x (List.mem_cons_self x xs) p h with h' | h'
      · exact Or.inl h'
      · exact Or.inr h'
    · exact Or.inr h

/-- Gathering a fan-out whose per-element build never throws yields the
mapped list. -/
theorem settleAll_ok {ε α β : Type} (f : α → Except ε β) (g : α → β)
    (l : List α) (h : ∀ a ∈ l, f a = .ok (g a)) :
    settleAll f l = .ok (l.map g) := by
  induction l with
  | nil => rfl
  | cons x xs ih =>
    have hx := h x (List.mem_cons_self x xs)
    have hxs := ih (fun a ha => h a (List.mem_cons_of_mem _ ha))
    simp [settleAll, hx, hxs]

/-- Boolean equality of `Option` values unfolds on two `some`s. -/
theorem option_some_beq {α : Type} [BEq α] (a b : α) :
    ((some a : Option α) == some b) = (a == b) := rfl

/-- C4: for every resource in the catalog and every property declared in
its property list, the encoded URL key token for a value of that
property is unquoted (an OData literal) exactly when the declared type
is `Edm.Int32` or `Edm.Guid`, and is a quoted OData string literal for
every other declared type. -/
theorem C4_key_token_encoding (catalog : List (String × EntitySet))
    (resource : String) (res : EntitySet)
    (hres : lookupRecord catalog (toLowerCase resource) = some res)
    (name : String) (p : EntityProperty)
    (hp : res.Type'.Property.find? (fun q => q.Name == name) = some p)
    (id : Identifier) :
    (getproperty_identifier res name id).quoted
      = !(p.Type' == "Edm.Int32" || p.Type' == "Edm.Guid") := by
  unfold getproperty_identifier
  rw [hp]
  simp only [Option.map_some', option_some_beq]
  rcases Bool.eq_false_or_eq_true (p.Type' == "Edm.Int32" || p.Type' == "Edm.Guid")
    with h | h <;> simp [h, KeyToken.quoted]

/-- Evaluation of `C4_key_token_encoding` on the integer-keyed fixture
resource: the token for `EmployeeID` is unquoted. -/
theorem C4_witness :
    (getproperty_identifier employeesSet "EmployeeID" (Identifier.num 1)).quoted
      = !(("Edm.Int32" == "Edm.Int32") || ("Edm.Int32" == "Edm.Guid")) :=
  C4_key_token_encoding catalogEx "Employees" employeesSet (by decide)
    "EmployeeID" ⟨"EmployeeID", "Edm.Int32"⟩ (by decide) (Identifier.num 1)

/-- C5 is false as stated: an undeclared property name is encoded on the
plain (quoted) branch, not with the unquoted literal encoding — here the
property `Foo` is absent from the fixture resource's property list and
the value `X` is emitted as a quoted string token. -/
theorem C5_counterexample :
    customersSet.Type'.Property.find? (fun q => q.Name == "Foo") = none ∧
    getproperty_identifier customersSet "Foo" (Identifier.str "X")
      = KeyToken.plain (.str "X") ∧
    (getproperty_identifier customersSet "Foo" (Identifier.str "X")).quoted = true ∧
    (getproperty_identifier customersSet "Foo" (Identifier.str "X")).quoted ≠ false := by
  refine ⟨by decide, by decide, by decide, by decide⟩

/-- C5 amended: for every property name that is not declared in the
resource's property list, the identifier codec falls back to the plain
encoding — the same branch as every non-Int32/Guid declared type, whose
rendered token is a quoted OData string literal, not the unquoted
literal encoding. -/
theorem C5_undeclared_falls_back_plain (res : EntitySet) (name : String)
    (id : Identifier)
    (h : res.Type'.Property.find? (fun q => q.Name == name) = none) :
    getproperty_identifier res name id = KeyToken.plain id ∧
    (getproperty_identifier res name id).quoted = true := by
  unfold getproperty_identifier
  rw [h]
  exact ⟨rfl, rfl⟩

/-- Evaluation of `C5_undeclared_falls_back_plain` on the fixture
resource and the undeclared property `Bar`. -/
theorem C5_witness :
    getproperty_identifier customersSet "Bar" (Identifier.str "Q")
      = KeyToken.plain (.str "Q") ∧
    (getproperty_identifier customersSet "Bar" (Identifier.str "Q")).quoted = true :=
  C5_undeclared_falls_back_plain customersSet "Bar" (Identifier.str "Q") (by decide)

/-- The `Contains` filter fold of `getList_query` never touches the skip
field. -/
theorem containsFold_skip (l : List (String × String)) (o : Query) :
    (l.foldl (fun o f =>
      { o with filters := o.filters ++ [FilterClause.contains f.1 f.2] }) o).skip
      = o.skip := by
  induction l generalizing o with
  | nil => rfl
  | cons x xs ih => rw [List.foldl_cons]; exact ih _

/-- The `Contains` filter fold of `getList_query` never touches the top
field. -/
theorem containsFold_top (l : List (String × String)) (o : Query) :
    (l.foldl (fun o f =>
      { o with filters := o.filters ++ [FilterClause.contains f.1 f.2] }) o).top
      = o.top := by
  induction l generalizing o with
  | nil => rfl
  | cons x xs ih => rw [List.foldl_cons]; exact ih _

/-- C7: for every list-style operation — `getList` and the filter branch
of `getManyReference` — with pagination `page ≥ 1`, `perPage ≥ 1`, the
built request's skip value is `(page - 1) * perPage` and its top value
is `perPage`. -/
theorem C7_pagination_arithmetic (resource : String) (p : GetListParams)
    (hpage : 1 ≤ p.page) (hper : 1 ≤ p.perPage) :
    ((getList_query resource p).skip = some ((p.page - 1) * p.perPage) ∧
     (getList_query resource p).top = some p.perPage) ∧
    (∀ (catalog : List (String × EntitySet)) (res : EntitySet)
        (q : GetManyRefParams) (id : Identifier),
      q.id = some id → id.falsy = false → truthyOptStr q.parent = false →
      lookupRecord catalog (toLowerCase resource) = some res →
      1 ≤ q.page → 1 ≤ q.perPage →
      ∃ qr, getManyReference_query catalog resource q = .ok (some qr) ∧
        qr.skip = some ((q.page - 1) * q.perPage) ∧ qr.top = some q.perPage) := by
  constructor
  · unfold getList_query
    rw [containsFold_skip, containsFold_top]
    exact ⟨rfl, rfl⟩
  · intro catalog res q id hid hfal hpar hres _ _
    have htok : getproperty_identifier_cat catalog resource q.target id
        = .ok (getproperty_identifier res q.target id) := by
      unfold getproperty_identifier_cat
      rw [hres]
    cases hq : q.parent with
    | none =>
      simp only [getManyReference_query, hid, hfal, hq, htok, Bool.false_eq_true,
        if_false, Except.map]
      exact ⟨_, rfl, rfl, rfl⟩
    | some s =>
      have hs : (s == "") = true := by
        unfold truthyOptStr at hpar
        rw [hq] at hpar
        simpa using hpar
      simp only [getManyReference_query, hid, hfal, hq, hs, Bool.false_eq_true,
        if_false, if_true, htok, Except.map]
      exact ⟨_, rfl, rfl, rfl⟩

/-- Fixture parameters for the pagination claims: page 3, 10 per page. -/
def pageParamsEx : GetListParams :=
  { page := 3, perPage := 10, field := "CompanyName", order := "ASC", filter := [] }

/-- Fixture parameters for the `getManyReference` filter branch with
page 3, 10 per page. -/
def gmrFilterEx : GetManyRefParams :=
  { id := some (.num 7), target := "CustomerID", parent := none
    page := 3, perPage := 10, field := "CompanyName", order := "ASC" }

/-- Evaluation of `C7_pagination_arithmetic` at page 3 and perPage 10:
skip is 20 and top is 10 on both list-style paths. -/
theorem C7_witness :
    (getList_query "Customers" pageParamsEx).skip = some 20 ∧
    (getList_query "Customers" pageParamsEx).top = some 10 ∧
    (∃ qr, getManyReference_query catalogEx "Customers" gmrFilterEx
        = .ok (some qr) ∧ qr.skip = some 20 ∧ qr.top = some 10) := by
  have h := C7_pagination_arithmetic "Customers" pageParamsEx (by decide) (by decide)
  refine ⟨?_, ?_, ?_⟩
  · have := h.1.1
    simpa using this
  · have := h.1.2
    simpa using this
  · have h2 := h.2 catalogEx customersSet gmrFilterEx (.num 7) rfl (by decide)
      (by decide) (by decide) (by decide) (by decide)
    rcases h2 with ⟨qr, hqr, hskip, htop⟩
    exact ⟨qr, hqr, by simpa using hskip, by simpa using htop⟩

/-- C10: every `getManyReference` call whose scoping id is falsy — the
number 0 and the empty string included, not only an absent id — resolves
to the empty record list with total 0, and no request is built at all. -/
theorem C10_falsy_id {α : Type} (catalog : List (String × EntitySet))
    (resource : String) (p : GetManyRefParams) (t : Query → Resp α)
    (h : idTruthy p.id = false) :
    getManyReference_query catalog resource p = .ok none ∧
    getManyReference catalog resource p t = .ok ([], 0) ∧
    Identifier.falsy (.num 0) = true ∧ Identifier.falsy (.str "") = true := by
  have hq : getManyReference_query catalog resource p = .ok none := by
    cases hid : p.id with
    | none => simp only [getManyReference_query, hid]
    | some id =>
      unfold idTruthy at h
      rw [hid] at h
      simp only [Bool.not_eq_false'] at h
      simp only [getManyReference_query, hid, h, if_true]
  refine ⟨hq, ?_, rfl, rfl⟩
  unfold getManyReference
  rw [hq]

/-- Fixture parameters with the falsy numeric id 0. -/
def gmrZeroEx : GetManyRefParams :=
  { id := some (.num 0), target := "CustomerID", parent := none
    page := 1, perPage := 10, field := "CompanyName", order := "ASC" }

/-- Evaluation of `C10_falsy_id` at the numeric id 0. -/
theorem C10_witness :
    getManyReference_query catalogEx "Customers" gmrZeroEx = .ok none ∧
    getManyReference catalogEx "Customers" gmrZeroEx okTransport = .ok ([], 0) ∧
    Identifier.falsy (.num 0) = true ∧ Identifier.falsy (.str "") = true :=
  C10_falsy_id catalogEx "Customers" gmrZeroEx okTransport (by decide)

/-- C1 is false as stated: a failed delete's slot is not dropped from
the result — the `.then` callback returns nothing for it (JavaScript
`undefined`), so deleting ids `[1,2,3]` where id 2's delete answers
status 500 yields the 3-slot list `[1, undefined, 3]`, not the id list
`[1,3]`. -/
theorem C1_counterexample :
    deleteMany catalogEx "Employees"
        [Identifier.num 1, Identifier.num 2, Identifier.num 3] perIdTransport
      = .ok [some (.num 1), none, some (.num 3)] ∧
    (Except.ok [some (Identifier.num 1), none, some (Identifier.num 3)] :
        Except OpError (List (Option Identifier)))
      ≠ .ok [some (.num 1), some (.num 3)] := by
  exact ⟨by decide, by decide⟩

/-- C1 amended: the value `deleteMany` resolves with has one slot per
requested id, aligned to the input order; a slot carries its id exactly
when that id's delete sub-request returned a 2xx status, and carries
nothing (JavaScript `undefined`) otherwise — failed ids are blanked in
place, not removed from the list. -/
theorem C1_deleteMany_slots {α : Type} (catalog : List (String × EntitySet))
    (resource : String) (res : EntitySet)
    (hres : lookupRecord catalog (toLowerCase resource) = some res)
    (ids : List Identifier) (t : Identifier → Resp α) :
    ∃ l, deleteMany catalog resource ids t = .ok l ∧
      l.length = ids.length ∧
      ∀ i (hi : i < ids.length) (hl : i < l.length),
        (200 ≤ (t ids[i]).statusCode ∧ (t ids[i]).statusCode < 300 →
          l[i] = some ids[i]) ∧
        (¬(200 ≤ (t ids[i]).statusCode ∧ (t ids[i]).statusCode < 300) →
          l[i] = none) := by
  have hok : ∀ id ∈ ids,
      (getresource catalog resource id).map (fun _ => deleteMany_slot id (t id))
        = .ok (deleteMany_slot id (t id)) := by
    intro id _
    unfold getresource
    rw [hres]
    rfl
  refine ⟨ids.map (fun id => deleteMany_slot id (t id)),
    settleAll_ok _ _ ids hok, by simp, ?_⟩
  intro i hi hl
  have hget : (ids.map (fun id => deleteMany_slot id (t id)))[i]
      = deleteMany_slot ids[i] (t ids[i]) := by
    simp
  constructor
  · intro h2
    rw [hget]
    unfold deleteMany_slot
    rw [if_pos h2]
  · intro h2
    rw [hget]
    unfold deleteMany_slot
    rw [if_neg h2]

/-- Evaluation of `C1_deleteMany_slots` on the fixture run where id 2
fails. -/
theorem C1_witness :
    ∃ l, deleteMany catalogEx "Employees"
        [Identifier.num 1, Identifier.num 2, Identifier.num 3] perIdTransport
      = .ok l ∧ l.length = 3 := by
  obtain ⟨l, h1, h2, _⟩ := C1_deleteMany_slots catalogEx "Employees" employeesSet
    (by decide) [Identifier.num 1, Identifier.num 2, Identifier.num 3] perIdTransport
  exact ⟨l, h1, by simpa using h2⟩

/-- C6: a `getMany` call over a list of ids resolves to a list of the
same length aligned to the requested id order; each slot holds the
fetched entity when its sub-request succeeded (status 200, no error
envelope) and an object carrying the id and an error otherwise — one
failing id neither aborts nor reorders the batch. -/
theorem C6_getMany_aligned {α : Type} (catalog : List (String × EntitySet))
    (resource : String) (res : EntitySet)
    (hres : lookupRecord catalog (toLowerCase resource) = some res)
    (ids : List Identifier) (t : Identifier → Resp α) :
    ∃ l, getMany catalog resource ids t = .ok l ∧
      l.length = ids.length ∧
      ∀ i (hi : i < ids.length) (hl : i < l.length),
        ((t ids[i]).statusCode = 200 → (t ids[i]).json.error = none →
          l[i] = .entity (t ids[i]).json.entity) ∧
        ((t ids[i]).statusCode ≠ 200 ∨ (t ids[i]).json.error ≠ none →
          ∃ e, l[i] = .failure ids[i] e) := by
  have hok : ∀ id ∈ ids,
      (getresource catalog resource id).map (fun _ => getMany_slot id (t id))
        = .ok (getMany_slot id (t id)) := by
    intro id _
    unfold getresource
    rw [hres]
    rfl
  refine ⟨ids.map (fun id => getMany_slot id (t id)),
    settleAll_ok _ _ ids hok, by simp, ?_⟩
  intro i hi hl
  have hget : (ids.map (fun id => getMany_slot id (t id)))[i]
      = getMany_slot ids[i] (t ids[i]) := by
    simp
  constructor
  · intro h200 herr
    rw [hget]
    simp [getMany_slot, h200, herr]
  · intro hfail
    rw [hget]
    unfold getMany_slot
    by_cases h200 : (t ids[i]).statusCode = 200
    · have herr : (t ids[i]).json.error ≠ none := by
        rcases hfail with h | h
        · exact absurd h200 h
        · exact h
      rcases hopt : (t ids[i]).json.error with _ | m
      · exact absurd hopt herr
      · exact ⟨.envelope (statusMessageOr (t ids[i]).statusMessage "getMany error")
          m (t ids[i]).body, by simp [h200, hopt]⟩
    · exact ⟨.http (statusMessageOr (t ids[i]).statusMessage "getMany error")
        (t ids[i]).statusCode (t ids[i]).body, by rw [if_pos h200]⟩

/-- Evaluation of `C6_getMany_aligned` on the fixture run where id 2
fails. -/
theorem C6_witness :
    ∃ l, getMany catalogEx "Employees"
        [Identifier.num 1, Identifier.num 2, Identifier.num 3] perIdTransport
      = .ok l ∧ l.length = 3 := by
  obtain ⟨l, h1, h2, _⟩ := C6_getMany_aligned catalogEx "Employees" employeesSet
    (by decide) [Identifier.num 1, Identifier.num 2, Identifier.num 3] perIdTransport
  exact ⟨l, h1, by simpa using h2⟩

/-- C9 is false as stated: invoked with a resource absent from the
catalog but an empty id list, the batch operations `getMany` and
`deleteMany` never consult the catalog and resolve successfully with an
empty batch instead of failing with the schema error. -/
theorem C9_counterexample :
    lookupRecord catalogEx (toLowerCase "NoSuch") = none ∧
    getMany catalogEx "NoSuch" ([] : List Identifier) (fun _ => resp200) = .ok [] ∧
    deleteMany catalogEx "NoSuch" ([] : List Identifier) (fun _ => resp200) = .ok [] := by
  exact ⟨by decide, rfl, rfl⟩

/-- C9 amended: with a resource whose lower-cased name is absent from
the discovered catalog, `getOne`, `update` and `delete` always fail with
the schema-classified error, and `getMany` and `deleteMany` do so
exactly when the id list is non-empty — with an empty id list they
resolve to an empty batch without ever consulting the catalog. -/
theorem C9_unknown_resource {α : Type} (catalog : List (String × EntitySet))
    (resource : String)
    (hres : lookupRecord catalog (toLowerCase resource) = none)
    (id : Identifier) (ids : List Identifier)
    (t : Query → Resp α) (tid : Identifier → Resp α) :
    getOne catalog resource id t = .error (.schema resource) ∧
    update catalog resource id t = .error (.schema resource) ∧
    delete catalog resource id t = .error (.schema resource) ∧
    (ids ≠ [] → getMany catalog resource ids tid = .error (.schema resource)) ∧
    (ids ≠ [] → deleteMany catalog resource ids tid = .error (.schema resource)) ∧
    getMany catalog resource [] tid = .ok [] ∧
    deleteMany catalog resource [] tid = .ok [] := by
  have hget : ∀ id' : Identifier,
      getresource catalog resource id' = .error (.schema resource) := by
    intro id'
    unfold getresource
    rw [hres]
  refine ⟨?_, ?_, ?_, ?_, ?_, rfl, rfl⟩
  · unfold getOne; rw [hget]
  · unfold update; rw [hget]
  · unfold delete; rw [hget]
  · intro hne
    cases ids with
    | nil => exact absurd rfl hne
    | cons x xs => simp [getMany, settleAll, hget, Except.map]
  · intro hne
    cases ids with
    | nil => exact absurd rfl hne
    | cons x xs => simp [deleteMany, settleAll, hget, Except.map]

/-- Evaluation of `C9_unknown_resource` at the unknown resource name
`NoSuch`. -/
theorem C9_witness :
    getOne catalogEx "NoSuch" (Identifier.num 1) okTransport
      = .error (.schema "NoSuch") ∧
    getMany catalogEx "NoSuch" [Identifier.num 1] perIdTransport
      = .error (.schema "NoSuch") := by
  have h := C9_unknown_resource catalogEx "NoSuch" (by decide) (Identifier.num 1)
    [Identifier.num 1] okTransport perIdTransport
  exact ⟨h.1, h.2.2.2.1 (by simp)⟩

/-- Transport-failure classification of a `getMany` result slot. -/
def GetManySlot.isTransportFailure {α : Type} : GetManySlot α → Bool
  | .failure _ (.http _ _ _) => true
  | .failure _ (.body _) => true
  | _ => false

/-- C2 is false as stated: a 201 response whose body carries no OData
error envelope is classified as a transport failure rather than a
success — `create` rejects it with the raw body and `getOne` throws an
`HttpError` — even though 201 is inside the 2xx range. -/
theorem C2_counterexample :
    (200 ≤ resp201.statusCode ∧ resp201.statusCode < 300) ∧
    resp201.json.error = none ∧
    create_handle resp201 = .error (.body "{}") ∧
    isTransportFailure (create_handle resp201) = true ∧
    getOne_handle resp201 = .error (.http "Created" 201 "{}") := by
  exact ⟨by decide, by decide, by decide, by decide, by decide⟩

/-- C2 amended: for every operation other than `deleteMany`, a response
is classified as a transport failure exactly when its status code is not
200 — 201 and 204 responses are rejected too — and a status-200 response
whose body carries no error envelope succeeds; only `deleteMany`'s
per-id sub-requests use the full 2xx range: a sub-request keeps its id
exactly when its status is 2xx. -/
theorem C2_status_classification {α : Type} :
    (∀ resp : Resp α,
      (isTransportFailure (getList_handle resp) = true ↔ resp.statusCode ≠ 200) ∧
      (isTransportFailure (getOne_handle resp) = true ↔ resp.statusCode ≠ 200) ∧
      (isTransportFailure (update_handle resp) = true ↔ resp.statusCode ≠ 200) ∧
      (isTransportFailure (create_handle resp) = true ↔ resp.statusCode ≠ 200) ∧
      (isTransportFailure (delete_handle resp) = true ↔ resp.statusCode ≠ 200)) ∧
    (∀ (p : GetManyRefParams) (resp : Resp α),
      isTransportFailure (getManyReference_handle p resp) = true
        ↔ resp.statusCode ≠ 200) ∧
    (∀ (id : Identifier) (resp : Resp α),
      GetManySlot.isTransportFailure (getMany_slot id resp) = true
        ↔ resp.statusCode ≠ 200) ∧
    (∀ resp : Resp α, resp.statusCode = 200 → resp.json.error = none →
      getOne_handle resp = .ok resp.json.entity ∧
      create_handle resp = .ok resp.json.entity ∧
      update_handle resp = .ok resp.json.entity ∧
      delete_handle resp = .ok resp.json.entity ∧
      getList_handle resp = .ok (resp.json.value, resp.json.odata_count)) ∧
    (∀ (id : Identifier) (resp : Resp α),
      deleteMany_slot id resp = some id
        ↔ 200 ≤ resp.statusCode ∧ resp.statusCode < 300) := by
  refine ⟨?_, ?_, ?_, ?_, ?_⟩
  · intro resp
    refine ⟨?_, ?_, ?_, ?_, ?_⟩ <;>
    · by_cases h : resp.statusCode = 200
      · cases he : resp.json.error <;>
          simp [getList_handle, getOne_handle, update_handle, create_handle,
            delete_handle, isTransportFailure, h, he]
      · simp [getList_handle, getOne_handle, update_handle, create_handle,
          delete_handle, isTransportFailure, h]
  · intro p resp
    by_cases h : resp.statusCode = 200
    · cases he : resp.json.error with
      | none =>
        by_cases hp : truthyOptStr p.parent = true <;>
          simp [getManyReference_handle, isTransportFailure, h, he, hp]
      | some m => simp [getManyReference_handle, isTransportFailure, h, he]
    · simp [getManyReference_handle, isTransportFailure, h]
  · intro id resp
    by_cases h : resp.statusCode = 200
    · cases he : resp.json.error <;>
        simp [getMany_slot, GetManySlot.isTransportFailure, h, he]
    · simp [getMany_slot, GetManySlot.isTransportFailure, h]
  · intro resp h he
    refine ⟨?_, ?_, ?_, ?_, ?_⟩ <;>
      simp [getOne_handle, create_handle, update_handle, delete_handle,
        getList_handle, h, he]
  · intro id resp
    unfold deleteMany_slot
    by_cases h : 200 ≤ resp.statusCode ∧ resp.statusCode < 300
    · simp [h]
    · simp [h]

/-- Evaluation of `C2_status_classification` at the fixture responses:
the 201 response is a transport failure, the 200 response succeeds, and
a `deleteMany` sub-request keeps its id on 201. -/
theorem C2_witness :
    (isTransportFailure (getOne_handle resp201) = true
      ↔ resp201.statusCode ≠ 200) ∧
    getOne_handle resp200 = .ok resp200.json.entity ∧
    (deleteMany_slot (Identifier.num 1) resp201 = some (.num 1)
      ↔ 200 ≤ resp201.statusCode ∧ resp201.statusCode < 300) := by
  have h := C2_status_classification (α := String)
  exact ⟨(h.1 resp201).2.1, (h.2.2.2.1 resp200 rfl rfl).1,
    h.2.2.2.2 (Identifier.num 1) resp201⟩

/-- C3: `getManyReference` with a truthy `parent` filter marker uses the
expansion strategy — the built query expands the target navigation
property and the reported total is the expanded collection's length;
without a parent marker it uses the foreign-key filter strategy — the
query carries an equality filter on the target field and the reported
total is the server-reported inline count; and with no scoping id
supplied at all it resolves to the empty record list with total 0
without building any request. -/
theorem C3_getManyReference_strategies {α : Type}
    (catalog : List (String × EntitySet)) (resource : String)
    (p : GetManyRefParams) (t : Query → Resp α) :
    (∀ parent id res, p.parent = some parent → (parent == "") = false →
      p.id = some id → id.falsy = false →
      lookupRecord catalog (toLowerCase parent) = some res →
      ∃ qr, getManyReference_query catalog resource p = .ok (some qr) ∧
        qr.expand = some p.target ∧
        ((t qr).statusCode = 200 → (t qr).json.error = none →
          getManyReference catalog resource p t
            = .ok ((t qr).json.fields p.target,
                (((t qr).json.fields p.target).length : Int)))) ∧
    (∀ id res, truthyOptStr p.parent = false →
      p.id = some id → id.falsy = false →
      lookupRecord catalog (toLowerCase resource) = some res →
      ∃ qr tok, getManyReference_query catalog resource p = .ok (some qr) ∧
        qr.filters = [FilterClause.eqKey p.target tok] ∧
        ((t qr).statusCode = 200 → (t qr).json.error = none →
          getManyReference catalog resource p t
            = .ok ((t qr).json.value, (t qr).json.odata_count))) ∧
    (p.id = none →
      getManyReference_query catalog resource p = .ok none ∧
      getManyReference catalog resource p t = .ok ([], 0)) := by
  refine ⟨?_, ?_, ?_⟩
  · intro parent id res hpar hempty hid hfal hres
    have htr : truthyOptStr p.parent = true := by
      simp [truthyOptStr, hpar, hempty]
    have hgr : getresource catalog parent id
        = .ok { segments := [(res.Url, some (getproperty_identifier res
            ((res.Key.map EntityProperty.Name).getD "UnknownType") id))] } := by
      unfold getresource
      rw [hres]
    simp only [getManyReference_query, hid, hfal, hpar, hempty, Bool.false_eq_true,
      if_false, hgr, Except.map]
    refine ⟨_, rfl, rfl, ?_⟩
    intro h200 herr
    unfold getManyReference
    simp only [getManyReference_query, hid, hfal, hpar, hempty, Bool.false_eq_true,
      if_false, hgr, Except.map]
    simp [getManyReference_handle, h200, herr, htr]
  · intro id res hpar hid hfal hres
    have htok : getproperty_identifier_cat catalog resource p.target id
        = .ok (getproperty_identifier res p.target id) := by
      unfold getproperty_identifier_cat
      rw [hres]
    cases hq : p.parent with
    | none =>
      simp only [getManyReference_query, hid, hfal, hq, htok, Bool.false_eq_true,
        if_false, Except.map]
      refine ⟨_, _, rfl, rfl, ?_⟩
      intro h200 herr
      unfold getManyReference
      simp only [getManyReference_query, hid, hfal, hq, htok, Bool.false_eq_true,
        if_false, Except.map]
      have htr : truthyOptStr p.parent = false := by rw [hq]; rfl
      simp [getManyReference_handle, h200, herr, htr]
    | some s =>
      have hs : (s == "") = true := by
        unfold truthyOptStr at hpar
        rw [hq] at hpar
        simpa using hpar
      simp only [getManyReference_query, hid, hfal, hq, hs, Bool.false_eq_true,
        if_false, if_true, htok, Except.map]
      refine ⟨_, _, rfl, rfl, ?_⟩
      intro h200 herr
      unfold getManyReference
      simp only [getManyReference_query, hid, hfal, hq, hs, Bool.false_eq_true,
        if_false, if_true, htok, Except.map]
      have htr : truthyOptStr p.parent = false := by
        simp only [truthyOptStr, hq]
        simpa using hs
      simp [getManyReference_handle, h200, herr, htr]
  · intro hid
    have hq : getManyReference_query catalog resource p = .ok none := by
      simp only [getManyReference_query, hid]
    refine ⟨hq, ?_⟩
    unfold getManyReference
    rw [hq]

/-- Fixture parameters for the expansion strategy: parent `Customers`,
scoping id `ALFKI`, target `Orders`. -/
def gmrParentEx : GetManyRefParams :=
  { id := some (.str "ALFKI"), target := "Orders", parent := some "Customers"
    page := 1, perPage := 10, field := "OrderID", order := "ASC" }

/-- Evaluation of `C3_getManyReference_strategies`: the expansion branch
reports the expanded collection's length (here 3) as total. -/
theorem C3_witness :
    ∃ qr, getManyReference_query catalogEx "Orders" gmrParentEx = .ok (some qr) ∧
      qr.expand = some "Orders" ∧
      getManyReference catalogEx "Orders" gmrParentEx okTransport
        = .ok (["x", "y", "z"], 3) := by
  obtain ⟨qr, hq, hexp, hrun⟩ :=
    (C3_getManyReference_strategies catalogEx "Orders" gmrParentEx okTransport).1
      "Customers" (.str "ALFKI") customersSet rfl (by decide) rfl (by decide)
      (by decide)
  refine ⟨qr, hq, hexp, ?_⟩
  have := hrun rfl rfl
  simpa using this

/-- A successful record lookup names a member of the list. -/
theorem lookupRecord_mem {β : Type} {m : List (String × β)} {k : String} {v : β}
    (h : lookupRecord m k = some v) : ∃ p ∈ m, p.2 = v := by
  unfold lookupRecord at h
  cases hf : m.find? (fun p => p.1 == k) with
  | none => rw [hf] at h; cases h
  | some pr =>
    rw [hf] at h
    refine ⟨pr, List.mem_of_find?_eq_some hf, ?_⟩
    simpa using h

/-- Every entry of the entity-type pass originates from a declaration
whose `Key` element is a single (non-array) property reference. -/
theorem get_entity_types_origin (md : Metadata) (q : String × EntityType)
    (hq : q ∈ get_entity_types md) :
    ∃ schema e ref, schema ∈ md.Schema ∧ e ∈ schema.EntityType ∧
      e.Key = some (KeyRefs.single ref) ∧ q.2 = build_entity_type e ref := by
  unfold get_entity_types at hq
  have h := foldl_mem_preserve
    (fun q : String × EntityType =>
      ∃ schema e ref, schema ∈ md.Schema ∧ e ∈ schema.EntityType ∧
        e.Key = some (KeyRefs.single ref) ∧ q.2 = build_entity_type e ref)
    (fun acc schema => schema.EntityType.foldl (fun acc e =>
      match e.Key with
      | some (KeyRefs.single ref) =>
          recordInsert acc (schema.Namespace ++ "." ++ e.Name) (build_entity_type e ref)
      | _ => acc) acc)
    md.Schema ?_ [] q hq
  · rcases h with h | h
    · cases h
    · exact h
  · intro acc schema hschema q hq'
    have hinner := foldl_mem_preserve
      (fun q : String × EntityType =>
        ∃ e ref, e ∈ schema.EntityType ∧ e.Key = some (KeyRefs.single ref) ∧
          q.2 = build_entity_type e ref)
      (fun acc e =>
        match e.Key with
        | some (KeyRefs.single ref) =>
            recordInsert acc (schema.Namespace ++ "." ++ e.Name) (build_entity_type e ref)
        | _ => acc)
      schema.EntityType ?_ acc q hq'
    · rcases hinner with h | ⟨e, ref, he, hkey, hbuild⟩
      · exact Or.inl h
      · exact Or.inr ⟨schema, e, ref, hschema, he, hkey, hbuild⟩
    · intro acc' e he q hq''
      cases hkey : e.Key with
      | none =>
        simp only [hkey] at hq''
        exact Or.inl hq''
      | some kr =>
        cases kr with
        | single ref =>
          simp only [hkey] at hq''
          rcases recordInsert_mem hq'' with h | h
          · exact Or.inl h
          · refine Or.inr ⟨e, ref, he, hkey, ?_⟩
            rw [h]
        | multiple refs =>
          simp only [hkey] at hq''
          exact Or.inl hq''

/-- C8: every entity set present in the discovered catalog references an
entity type built from a declaration with exactly one scalar key
property (a single, non-array `PropertyRef`); declarations with no key
or a compound key — and the entity sets referencing them — never appear
in the catalog output. -/
theorem C8_catalog_single_key (md : Metadata) (p : String × EntitySet)
    (hp : p ∈ get_entities md) :
    ∃ schema e ref, schema ∈ md.Schema ∧ e ∈ schema.EntityType ∧
      e.Key = some (KeyRefs.single ref) ∧ p.2.Type' = build_entity_type e ref := by
  unfold get_entities at hp
  have h := foldl_mem_preserve
    (fun p : String × EntitySet =>
      ∃ schema e ref, schema ∈ md.Schema ∧ e ∈ schema.EntityType ∧
        e.Key = some (KeyRefs.single ref) ∧ p.2.Type' = build_entity_type e ref)
    (fun acc schema => schema.EntitySet.foldl (fun acc set =>
      match lookupRecord (get_entity_types md) set.EntityType' with
      | some ty => recordInsert acc (toLowerCase set.Name)
          { Name := set.Name, Url := set.Name, Type' := ty, Key := ty.Key }
      | none => acc) acc)
    md.Schema ?_ [] p hp
  · rcases h with h | h
    · cases h
    · exact h
  · intro acc schema _ q hq
    have hinner := foldl_mem_preserve
      (fun p : String × EntitySet =>
        ∃ schema e ref, schema ∈ md.Schema ∧ e ∈ schema.EntityType ∧
          e.Key = some (KeyRefs.single ref) ∧ p.2.Type' = build_entity_type e ref)
      (fun acc set =>
        match lookupRecord (get_entity_types md) set.EntityType' with
        | some ty => recordInsert acc (toLowerCase set.Name)
            { Name := set.Name, Url := set.Name, Type' := ty, Key := ty.Key }
        | none => acc)
      schema.EntitySet ?_ acc q hq
    · exact hinner
    · intro acc' set _ q hq'
      cases hlk : lookupRecord (get_entity_types md) set.EntityType' with
      | none =>
        simp only [hlk] at hq'
        exact Or.inl hq'
      | some ty =>
        simp only [hlk] at hq'
        rcases recordInsert_mem hq' with h | h
        · exact Or.inl h
        · right
          obtain ⟨pr, hpr, hsnd⟩ := lookupRecord_mem hlk
          obtain ⟨schema', e, ref, hs, he, hk, hb⟩ := get_entity_types_origin md pr hpr
          refine ⟨schema', e, ref, hs, he, hk, ?_⟩
          rw [h]
          show ty = build_entity_type e ref
          rw [← hsnd]
          exact hb

/-- A fixture metadata document holding one single-key type, one keyless
type and one compound-key type, each with a declared entity set. -/
def mdEx : Metadata :=
  { Schema := [
    { Namespace := "NW"
      EntityType := [
        { Name := "Customer"
          Property := [⟨"CustomerID", "Edm.String"⟩, ⟨"CompanyName", "Edm.String"⟩]
          Key := some (.single ⟨"CustomerID"⟩) },
        { Name := "Demographic"
          Property := [⟨"Blob", "Edm.String"⟩]
          Key := none },
        { Name := "OrderDetail"
          Property := [⟨"OrderID", "Edm.Int32"⟩, ⟨"ProductID", "Edm.Int32"⟩]
          Key := some (.multiple [⟨"OrderID"⟩, ⟨"ProductID"⟩]) } ]
      EntitySet := [
        ⟨"Customers", "NW.Customer"⟩,
        ⟨"Demographics", "NW.Demographic"⟩,
        ⟨"OrderDetails", "NW.OrderDetail"⟩ ] } ] }

/-- Evaluation of `C8_catalog_single_key` on the fixture document: only
the single-key `Customers` set survives discovery — the keyless and
compound-key sets are dropped — and the surviving entry's type
originates from a single-key declaration. -/
theorem C8_witness :
    get_entities mdEx = [("customers", customersSet)] ∧
    (∃ schema e ref, schema ∈ mdEx.Schema ∧ e ∈ schema.EntityType ∧
      e.Key = some (KeyRefs.single ref) ∧
      ("customers", customersSet).2.Type' = build_entity_type e ref) :=
  ⟨by decide, C8_catalog_single_key mdEx ("customers", customersSet) (by decide)⟩

end RaOdata
